import Mathlib

/-!
Verification development for the planetary-system simulation core
(`src/core/bodies.py`, `src/core/physics.py`, `src/core/integrators.py`,
`src/core/events.py`).

The Python core is shallowly embedded:

* floating-point numbers are modelled by exact scalars — a general linear
  ordered field `K` (instantiated at `ℚ` for executable witnesses) for the
  entity model and the integrators, and `ℝ` for the gravity / energy /
  precession routines, whose formulas involve `sqrt` and real powers;
* `numpy` `(N, 2)` arrays are functions `Fin n → K × K`, and elementwise
  array arithmetic is the pointwise module structure on that type;
* the in-place mutation performed by `SystemState.update` is modelled twice:
  a value-level model (`SystemState.update` returns the overwritten state)
  used for the numerical claims, and a reference-level model (`Heap`
  namespace) with an explicit store of mutable 2-vector cells, used for the
  claim that integration never mutates the caller's state;
* Python exceptions (`ValueError`) become `Except String`.
-/

/-! ### Event metrics (`src/core/events.py`, lines 67-81)

`summarise_metrics` first runs the two detectors and then derives the
mean-orbits-between-alignments statistic from the detected timestamp lists.
The derivation part (source lines 67-81, the part the claims cite) is
embedded here as a function of the detected lists. Timestamps are modelled
as exact rationals. -/

/-- Embedding of `np.searchsorted(xs, v)` (default side `left`) for a sorted
list `xs`: the number of entries strictly below `v`, which is the leftmost
insertion index that `numpy` returns on sorted input. -/
def searchsorted (xs : List ℚ) (v : ℚ) : ℕ :=
  xs.countP (fun x => decide (x < v))

/-- The loop body of `summarise_metrics`: walking the alignments after the
first one, it records `max(0, next_pericentre_count - last_pericentre_count)`
for each consecutive alignment pair, where the counts are `searchsorted`
values of the pericentre list (`src/core/events.py`, lines 72-79).
The unused `last_alignment_index` / `next_alignment_index` variables of the
source are dead code and are not modelled. -/
def orbitsBetweenAux (peri : List ℚ) : ℤ → List ℚ → List ℤ
  | _, [] => []
  | last_pericentre_count, next_alignment_time :: rest =>
      max 0 ((searchsorted peri next_alignment_time : ℤ) - last_pericentre_count) ::
        orbitsBetweenAux peri (searchsorted peri next_alignment_time) rest

/-- The metric-derivation tail of `summarise_metrics`
(`src/core/events.py`, lines 67-81): given the simulation timestamps and the
already-detected pericentre and alignment timestamp lists, returns the
optional mean number of moon orbits between consecutive alignments.
`times` is received (as in the source) but only feeds the dead
`*_alignment_index` variables, so it does not influence the result. -/
def summariseCore (times : List ℚ) (pericentre_times alignments : List ℚ) : Option ℚ :=
  if 2 ≤ alignments.length ∧ 0 < pericentre_times.length then
    match alignments with
    | [] => none
    | first_alignment :: rest =>
        let moon_orbits_between :=
          orbitsBetweenAux pericentre_times (searchsorted pericentre_times first_alignment) rest
        if moon_orbits_between.isEmpty then none
        else some ((moon_orbits_between.map (fun c : ℤ => (c : ℚ))).sum / moon_orbits_between.length)
  else none

/-- Modelled from the spec wording of claim C2: for each consecutive
alignment pair count the pericentre timestamps *strictly between* the two
endpoints, and average those counts; absent when fewer than two alignments
or zero pericentres exist. Used only to compare the spec's reading with the
code's. -/
def specStrictMeanOrbits (pericentre_times alignments : List ℚ) : Option ℚ :=
  if 2 ≤ alignments.length ∧ 0 < pericentre_times.length then
    let pairs := alignments.zip alignments.tail
    if pairs.isEmpty then none
    else
      some (((pairs.map
        (fun p => (pericentre_times.countP (fun t => decide (p.1 < t ∧ t < p.2)) : ℚ))).sum) /
          pairs.length)
  else none

/-- The amended reading of claim C2: for each consecutive alignment pair
`(a, b)` count the pericentre timestamps `t` with `a ≤ t < b` (left-closed,
right-open — what the `searchsorted` differences actually compute), and
average those counts; absent when fewer than two alignments or zero
pericentres exist. -/
def halfOpenMeanOrbits (pericentre_times alignments : List ℚ) : Option ℚ :=
  if 2 ≤ alignments.length ∧ 0 < pericentre_times.length then
    let pairs := alignments.zip alignments.tail
    if pairs.isEmpty then none
    else
      some (((pairs.map
        (fun p => (pericentre_times.countP (fun t => decide (p.1 ≤ t ∧ t < p.2)) : ℚ))).sum) /
          pairs.length)
  else none

/-! ### Entity model (`src/core/bodies.py`)

Scalars are a generic linear ordered field `K` (exact model of the Python
floats); an `(N, 2)` numpy array is a function `Fin n → K × K`. -/

/-- A celestial body (`src/core/bodies.py`, class `Body`). -/
structure Body (K : Type) where
  name : String
  mass : K
  position : K × K
  velocity : K × K
  color : String := "white"

/-- `SystemState`: the ordered collection of `n` bodies
(`src/core/bodies.py`, class `SystemState`). -/
structure SystemState (n : ℕ) (K : Type) where
  bodies : Fin n → Body K

/-- `Body.copy`: a value-level copy (the array-cloning aspect is modelled in
the `Heap` namespace). -/
def Body.copy {K : Type} (b : Body K) : Body K :=
  { name := b.name, mass := b.mass, position := b.position,
    velocity := b.velocity, color := b.color }

/-- `SystemState.copy` (value level). -/
def SystemState.copy {n : ℕ} {K : Type} (s : SystemState n K) : SystemState n K :=
  ⟨fun i => (s.bodies i).copy⟩

/-- An `(N, 2)` numpy array of scalars `K`. -/
abbrev Vec (n : ℕ) (K : Type) := Fin n → K × K

/-- `SystemState.positions`: stacked positions. -/
def SystemState.positions {n : ℕ} {K : Type} (s : SystemState n K) : Vec n K :=
  fun i => (s.bodies i).position

/-- `SystemState.velocities`: stacked velocities. -/
def SystemState.velocities {n : ℕ} {K : Type} (s : SystemState n K) : Vec n K :=
  fun i => (s.bodies i).velocity

/-- `SystemState.masses`: stacked masses. -/
def SystemState.masses {n : ℕ} {K : Type} (s : SystemState n K) : Fin n → K :=
  fun i => (s.bodies i).mass

/-- `SystemState.update`: overwrite every body's position and velocity from
stacked arrays (value-level model of the in-place write). -/
def SystemState.update {n : ℕ} {K : Type} (s : SystemState n K)
    (positions velocities : Vec n K) : SystemState n K :=
  ⟨fun i => { s.bodies i with position := positions i, velocity := velocities i }⟩

/-- A perturbation configuration: the Python `Dict[str, float]`. -/
abbrev PrecessionConfig (K : Type) := List (String × K)

/-- `dict.get(key, default)` on a `PrecessionConfig`. -/
def dictGet {K : Type} (cfg : PrecessionConfig K) (key : String) (dfault : K) : K :=
  match cfg.lookup key with
  | some v => v
  | none => dfault

/-- The `AccelerationFunc` type of `src/core/integrators.py`: a pluggable map
from a system state and an optional perturbation configuration to stacked
accelerations. -/
abbrev AccelerationFunc (n : ℕ) (K : Type) :=
  SystemState n K → Option (PrecessionConfig K) → Vec n K

/-- Python's `str.lower()` (for the ASCII method names used here), embedded
structurally over the character data so that concrete instances evaluate. -/
def lowerStr (s : String) : String :=
  ⟨s.data.map Char.toLower⟩

/-! ### Integrators (`src/core/integrators.py`)

The loop state of `leapfrog` carries the private working copy `temp`, the
previous snapshot (`pos`, `vel`), the most recent acceleration `accel`, and —
to make the cost visible — the number of `acceleration_fn` evaluations
performed so far. -/

/-- Loop state of the `leapfrog` integrator. -/
structure LeapfrogState (n : ℕ) (K : Type) where
  temp : SystemState n K
  pos : Vec n K
  vel : Vec n K
  accel : Vec n K
  evals : ℕ

/-- One iteration of the `leapfrog` loop (`src/core/integrators.py`,
lines 33-41): advance the positions, overwrite the working copy with the new
positions and the *previous* velocities, evaluate the acceleration once
there, then average old and new acceleration for the velocity update. -/
def leapfrogStep {n : ℕ} {K : Type} [LinearOrderedField K] (dt : K)
    (acceleration_fn : AccelerationFunc n K) (cfg : Option (PrecessionConfig K))
    (st : LeapfrogState n K) : LeapfrogState n K :=
  let new_positions := st.pos + dt • st.vel + ((1/2 : K) * dt * dt) • st.accel
  let temp_state := st.temp.update new_positions st.vel
  let new_accel := acceleration_fn temp_state cfg
  let new_velocities := st.vel + ((1/2 : K) * dt) • (st.accel + new_accel)
  ⟨temp_state, new_positions, new_velocities, new_accel, st.evals + 1⟩

/-- The `leapfrog` loop state after `k` steps; step 0 is the initial
condition with one acceleration evaluation already performed
(`accel = acceleration_fn(temp_state, precession_config)` before the loop). -/
def leapfrogIter {n : ℕ} {K : Type} [LinearOrderedField K] (dt : K)
    (acceleration_fn : AccelerationFunc n K) (cfg : Option (PrecessionConfig K))
    (state : SystemState n K) : ℕ → LeapfrogState n K
  | 0 => ⟨state.copy, state.positions, state.velocities, acceleration_fn state.copy cfg, 1⟩
  | k + 1 => leapfrogStep dt acceleration_fn cfg (leapfrogIter dt acceleration_fn cfg state k)

/-- `leapfrog` (`src/core/integrators.py`, lines 13-43): velocity-Verlet
integration over `ceil(duration / dt)` steps, returning the
`(steps+1)`-snapshot position and velocity histories. -/
def leapfrog {n : ℕ} {K : Type} [LinearOrderedField K] [FloorRing K]
    (state : SystemState n K) (duration dt : K)
    (acceleration_fn : AccelerationFunc n K) (cfg : Option (PrecessionConfig K)) :
    List (Vec n K) × List (Vec n K) :=
  let n_steps := (⌈duration / dt⌉).toNat
  ((List.range (n_steps + 1)).map (fun k => (leapfrogIter dt acceleration_fn cfg state k).pos),
   (List.range (n_steps + 1)).map (fun k => (leapfrogIter dt acceleration_fn cfg state k).vel))

/-- One step of the `rk4` integrator (`src/core/integrators.py`,
lines 68-92): four staged acceleration evaluations on the working copy, then
the 1,2,2,1 weighted combination scaled by `dt/6`. -/
def rk4Step {n : ℕ} {K : Type} [LinearOrderedField K] (dt : K)
    (acceleration_fn : AccelerationFunc n K) (cfg : Option (PrecessionConfig K))
    (temp : SystemState n K) (pos vel : Vec n K) :
    SystemState n K × Vec n K × Vec n K :=
  let t1 := temp.update pos vel
  let a1 := acceleration_fn t1 cfg
  let k1_pos := vel
  let k1_vel := a1
  let t2 := t1.update (pos + ((1/2 : K) * dt) • k1_pos) (vel + ((1/2 : K) * dt) • k1_vel)
  let a2 := acceleration_fn t2 cfg
  let k2_pos := vel + ((1/2 : K) * dt) • k1_vel
  let k2_vel := a2
  let t3 := t2.update (pos + ((1/2 : K) * dt) • k2_pos) (vel + ((1/2 : K) * dt) • k2_vel)
  let a3 := acceleration_fn t3 cfg
  let k3_pos := vel + ((1/2 : K) * dt) • k2_vel
  let k3_vel := a3
  let t4 := t3.update (pos + dt • k3_pos) (vel + dt • k3_vel)
  let a4 := acceleration_fn t4 cfg
  let k4_pos := vel + dt • k3_vel
  let k4_vel := a4
  (t4,
   pos + (dt / 6) • (k1_pos + (2 : K) • k2_pos + (2 : K) • k3_pos + k4_pos),
   vel + (dt / 6) • (k1_vel + (2 : K) • k2_vel + (2 : K) • k3_vel + k4_vel))

/-- The `rk4` loop state (working copy, positions, velocities) after `k`
steps. -/
def rk4Iter {n : ℕ} {K : Type} [LinearOrderedField K] (dt : K)
    (acceleration_fn : AccelerationFunc n K) (cfg : Option (PrecessionConfig K))
    (state : SystemState n K) : ℕ → SystemState n K × Vec n K × Vec n K
  | 0 => (state.copy, state.positions, state.velocities)
  | k + 1 =>
      let p := rk4Iter dt acceleration_fn cfg state k
      rk4Step dt acceleration_fn cfg p.1 p.2.1 p.2.2

/-- `rk4` (`src/core/integrators.py`, lines 46-92): classic fourth-order
Runge-Kutta over `ceil(duration / dt)` steps. -/
def rk4 {n : ℕ} {K : Type} [LinearOrderedField K] [FloorRing K]
    (state : SystemState n K) (duration dt : K)
    (acceleration_fn : AccelerationFunc n K) (cfg : Option (PrecessionConfig K)) :
    List (Vec n K) × List (Vec n K) :=
  let n_steps := (⌈duration / dt⌉).toNat
  ((List.range (n_steps + 1)).map (fun k => (rk4Iter dt acceleration_fn cfg state k).2.1),
   (List.range (n_steps + 1)).map (fun k => (rk4Iter dt acceleration_fn cfg state k).2.2))

/-- The dispatcher `integrate` (`src/core/integrators.py`, lines 95-116):
selects the integrator by the lowercased method name from the
`{leapfrog, verlet, rk4}` table, raising `ValueError` (modelled as
`Except.error`) on an unknown name; the selected integrator receives
`state.copy()`. -/
def integrate {n : ℕ} {K : Type} [LinearOrderedField K] [FloorRing K]
    (state : SystemState n K) (duration dt : K) (method : String)
    (acceleration_fn : AccelerationFunc n K) (cfg : Option (PrecessionConfig K)) :
    Except String (List (Vec n K) × List (Vec n K)) :=
  let integrators : List (String ×
      (SystemState n K → K → K → AccelerationFunc n K → Option (PrecessionConfig K) →
        List (Vec n K) × List (Vec n K))) :=
    [("leapfrog", leapfrog), ("verlet", leapfrog), ("rk4", rk4)]
  match integrators.lookup (lowerStr method) with
  | some integrator => .ok (integrator state.copy duration dt acceleration_fn cfg)
  | none => .error ("Unknown integration method \x27" ++ method ++ "\x27.")

/-! ### Physics (`src/core/constants.py`, `src/core/physics.py`)

The gravity, precession and energy routines involve `sqrt` and the real
power `** -1.5`, so they are embedded over `ℝ` (the exact-real model of the
Python floats); they are `noncomputable` exactly where real square roots
and real powers force them to be. -/

/-- `PhysicalConstants` (`src/core/constants.py`): normalized unit system. -/
structure PhysicalConstants where
  gravitational_constant : ℝ := 1
  star_mass : ℝ := 1
  planet_mass : ℝ := 2.5e-3
  moon_mass : ℝ := 3.0e-5

/-- The default `CONSTANTS` instance of `src/core/constants.py`. -/
def CONSTANTS : PhysicalConstants := {}

/-- The Euclidean norm of a 2-vector, `np.linalg.norm` on one row. -/
noncomputable def norm2 (u : ℝ × ℝ) : ℝ :=
  Real.sqrt (u.1 ^ 2 + u.2 ^ 2)

/-- The contribution of one body `j` (position `pj`, mass `mj`) to the
acceleration of the body at `pi` inside `compute_pairwise_gravity`
(`src/core/physics.py`, lines 18-27): `-G * mj * displacement * dsq ** -1.5`
with the `np.where(dsq > 0, dsq ** -1.5, 0)` guard. -/
noncomputable def gravityContribution (pi pj : ℝ × ℝ) (mj : ℝ) : ℝ × ℝ :=
  let displacement := pi - pj
  let distance_sq := displacement.1 ^ 2 + displacement.2 ^ 2
  let inv_dist_cubed := if distance_sq > 0 then Real.rpow distance_sq (-1.5) else 0
  (-CONSTANTS.gravitational_constant * (mj * displacement.1 * inv_dist_cubed),
   -CONSTANTS.gravitational_constant * (mj * displacement.2 * inv_dist_cubed))

/-- `compute_pairwise_gravity` (`src/core/physics.py`, lines 12-28): the
acceleration on each body `i` is the sum over all `j` (including `j = i`,
whose guarded contribution is zero) of the pairwise term. -/
noncomputable def compute_pairwise_gravity {n : ℕ}
    (positions : Vec n ℝ) (masses : Fin n → ℝ) : Vec n ℝ :=
  fun i => ∑ j, gravityContribution (positions i) (positions j) (masses j)

/-- `apply_precession` (`src/core/physics.py`, lines 30-65): adds the
artificial tangential term to the acceleration of the body named `Moon`,
relative to the body named `Planet`. Returns the (possibly) modified
acceleration array, or the configuration error the Python raises when a
nonzero strength is configured and the named bodies are missing. -/
noncomputable def apply_precession {n : ℕ} (system : SystemState n ℝ)
    (accelerations : Vec n ℝ) (precession_config : PrecessionConfig ℝ) :
    Except String (Vec n ℝ) :=
  let strength := dictGet precession_config "moon_precession_strength" 0
  if strength = 0 then .ok accelerations
  else
    match (List.finRange n).find? (fun i => (system.bodies i).name == "Planet"),
          (List.finRange n).find? (fun i => (system.bodies i).name == "Moon") with
    | some planet_index, some moon_index =>
        let planet_pos := (system.bodies planet_index).position
        let moon_pos := (system.bodies moon_index).position
        let relative_vector := moon_pos - planet_pos
        let radius := norm2 relative_vector
        if radius = 0 then .ok accelerations
        else
          let tangential_direction :=
            (-relative_vector.2 / radius, relative_vector.1 / radius)
          .ok (Function.update accelerations moon_index
                (accelerations moon_index + strength • tangential_direction))
    | _, _ => .error "Precession requires bodies named \x27Planet\x27 and \x27Moon\x27."

/-- `compute_accelerations` (`src/core/physics.py`, lines 68-81): pairwise
gravity plus the optional precession term; `if precession_config:` is Python
truthiness, so both `None` and an empty dict skip the perturbation. -/
noncomputable def compute_accelerations {n : ℕ} (system : SystemState n ℝ)
    (precession_config : Option (PrecessionConfig ℝ)) : Except String (Vec n ℝ) :=
  let accelerations := compute_pairwise_gravity system.positions system.masses
  match precession_config with
  | none => .ok accelerations
  | some cfg =>
      if cfg.isEmpty then .ok accelerations
      else apply_precession system accelerations cfg

/-- `compute_total_energy` (`src/core/physics.py`, lines 84-94): kinetic
energy `0.5 * Σ mᵢ (vᵢₓ² + vᵢᵧ²)` and potential energy accumulated as
`-= G mᵢ mⱼ / |rᵢ - rⱼ|` over the ordered double loop `j > i`. -/
noncomputable def compute_total_energy {n : ℕ}
    (positions velocities : Vec n ℝ) (masses : Fin n → ℝ) : ℝ × ℝ :=
  let kinetic := (1/2 : ℝ) *
    ∑ i, (masses i * (velocities i).1 ^ 2 + masses i * (velocities i).2 ^ 2)
  let potential := ∑ i, ∑ j ∈ Finset.Ioi i,
    -(CONSTANTS.gravitational_constant * masses i * masses j
        / norm2 (positions i - positions j))
  (kinetic, potential)

/-! ### Reference-semantics model of mutation (for the no-mutation claim)

Python `numpy` arrays are mutable objects: `SystemState.update` writes into
the `position` / `velocity` arrays of its bodies in place, and
`Body.copy()` clones those arrays. To state that integration never mutates
the caller's state, the arrays are modelled as cells in an explicit store:
a `Heap.Body` holds *references* (store indices) to its position and
velocity cells, `copy` allocates fresh cells, and `update` writes through
the references. The integrators below perform exactly the same sequence of
copies, reads, writes and arithmetic as `src/core/integrators.py`; the
freshly allocated numpy output arrays live outside the modelled heap, so
the heap integrators return the final store. -/

namespace Heap

/-- The store of mutable 2-vector cells; a reference is an index. -/
abbrev Store (K : Type) := List (K × K)

/-- Read a cell (out-of-range reads never occur in well-formed runs). -/
def Store.read {K : Type} [Zero K] (σ : Store K) (r : ℕ) : K × K :=
  σ.getD r 0

/-- Write a cell in place. -/
def Store.write {K : Type} (σ : Store K) (r : ℕ) (v : K × K) : Store K :=
  σ.set r v

/-- Allocate a fresh cell holding `v`; returns the new store and the
reference. -/
def Store.alloc {K : Type} (σ : Store K) (v : K × K) : Store K × ℕ :=
  (σ ++ [v], σ.length)

/-- A body whose position and velocity are references into the store. -/
structure Body (K : Type) where
  name : String
  mass : K
  posRef : ℕ
  velRef : ℕ
  color : String := "white"

/-- A system state: the ordered list of bodies (the Python list). -/
abbrev SystemState (K : Type) := List (Body K)

/-- `Body.copy` (`src/core/bodies.py`, lines 19-28): clone the position and
velocity arrays into fresh cells. -/
def Body.copy {K : Type} [Zero K] (σ : Store K) (b : Body K) : Store K × Body K :=
  let p := σ.alloc (σ.read b.posRef)
  let v := p.1.alloc (p.1.read b.velRef)
  (v.1, { b with posRef := p.2, velRef := v.2 })

/-- `SystemState.copy` (`src/core/bodies.py`, lines 37-40): deep copy of
every body in order. -/
def SystemState.copy {K : Type} [Zero K] (σ : Store K) :
    SystemState K → Store K × SystemState K
  | [] => (σ, [])
  | b :: bs =>
      let hb := Body.copy σ b
      let hbs := SystemState.copy hb.1 bs
      (hbs.1, hb.2 :: hbs.2)

/-- `SystemState.update` (`src/core/bodies.py`, lines 60-64): write the
given stacked arrays through each body's references, in order (`zip`
semantics: stops at the shortest argument). -/
def SystemState.update {K : Type} (σ : Store K) :
    SystemState K → List (K × K) → List (K × K) → Store K
  | [], _, _ => σ
  | _ :: _, [], _ => σ
  | _ :: _, _ :: _, [] => σ
  | b :: bs, p :: ps, v :: vs =>
      SystemState.update ((σ.write b.posRef p).write b.velRef v) bs ps vs

/-- Stacked positions read through the references. -/
def SystemState.positionsOf {K : Type} [Zero K] (σ : Store K) (s : SystemState K) :
    List (K × K) :=
  s.map (fun b => σ.read b.posRef)

/-- Stacked velocities read through the references. -/
def SystemState.velocitiesOf {K : Type} [Zero K] (σ : Store K) (s : SystemState K) :
    List (K × K) :=
  s.map (fun b => σ.read b.velRef)

/-- Elementwise sum of two stacked arrays. -/
def vadd {K : Type} [Add K] (xs ys : List (K × K)) : List (K × K) :=
  List.zipWith (fun a b => (a.1 + b.1, a.2 + b.2)) xs ys

/-- Scalar multiple of a stacked array. -/
def vsmul {K : Type} [Mul K] (c : K) (xs : List (K × K)) : List (K × K) :=
  xs.map (fun u => (c * u.1, c * u.2))

/-- An acceleration function in the reference model: it may read the store
through the state it is handed, and returns a fresh acceleration array. -/
abbrev AccelerationFunc (K : Type) :=
  Store K → SystemState K → Option (PrecessionConfig K) → List (K × K)

/-- The `leapfrog` loop in the reference model: each iteration computes the
new positions, writes them (with the previous velocities) through the
working copy's references, evaluates the acceleration there, and computes
the new velocities (`src/core/integrators.py`, lines 33-41). -/
def leapfrogAux {K : Type} [LinearOrderedField K] (temp : SystemState K) (dt : K)
    (acceleration_fn : AccelerationFunc K) (cfg : Option (PrecessionConfig K)) :
    ℕ → Store K × List (K × K) × List (K × K) × List (K × K) →
    Store K × List (K × K) × List (K × K) × List (K × K)
  | 0, st => st
  | k + 1, (σ, pos, vel, accel) =>
      let new_positions := vadd pos (vadd (vsmul dt vel) (vsmul ((1/2 : K) * dt * dt) accel))
      let σ1 := SystemState.update σ temp new_positions vel
      let new_accel := acceleration_fn σ1 temp cfg
      let new_velocities := vadd vel (vsmul ((1/2 : K) * dt) (vadd accel new_accel))
      leapfrogAux temp dt acceleration_fn cfg k (σ1, new_positions, new_velocities, new_accel)

/-- `leapfrog` in the reference model (`src/core/integrators.py`,
lines 13-43); returns the store as it stands after the run. -/
def leapfrog {K : Type} [LinearOrderedField K] [FloorRing K] (σ : Store K)
    (state : SystemState K) (duration dt : K)
    (acceleration_fn : AccelerationFunc K) (cfg : Option (PrecessionConfig K)) : Store K :=
  let n_steps := (⌈duration / dt⌉).toNat
  let pos0 := SystemState.positionsOf σ state
  let vel0 := SystemState.velocitiesOf σ state
  let c := SystemState.copy σ state
  let accel0 := acceleration_fn c.1 c.2 cfg
  (leapfrogAux c.2 dt acceleration_fn cfg n_steps (c.1, pos0, vel0, accel0)).1

/-- The `rk4` loop in the reference model: four staged writes through the
working copy per step (`src/core/integrators.py`, lines 68-92). -/
def rk4Aux {K : Type} [LinearOrderedField K] (temp : SystemState K) (dt : K)
    (acceleration_fn : AccelerationFunc K) (cfg : Option (PrecessionConfig K)) :
    ℕ → Store K × List (K × K) × List (K × K) →
    Store K × List (K × K) × List (K × K)
  | 0, st => st
  | k + 1, (σ, pos, vel) =>
      let σ1 := SystemState.update σ temp pos vel
      let a1 := acceleration_fn σ1 temp cfg
      let k1_pos := vel
      let k1_vel := a1
      let σ2 := SystemState.update σ1 temp (vadd pos (vsmul ((1/2 : K) * dt) k1_pos))
        (vadd vel (vsmul ((1/2 : K) * dt) k1_vel))
      let a2 := acceleration_fn σ2 temp cfg
      let k2_pos := vadd vel (vsmul ((1/2 : K) * dt) k1_vel)
      let k2_vel := a2
      let σ3 := SystemState.update σ2 temp (vadd pos (vsmul ((1/2 : K) * dt) k2_pos))
        (vadd vel (vsmul ((1/2 : K) * dt) k2_vel))
      let a3 := acceleration_fn σ3 temp cfg
      let k3_pos := vadd vel (vsmul ((1/2 : K) * dt) k2_vel)
      let k3_vel := a3
      let σ4 := SystemState.update σ3 temp (vadd pos (vsmul dt k3_pos))
        (vadd vel (vsmul dt k3_vel))
      let a4 := acceleration_fn σ4 temp cfg
      let k4_pos := vadd vel (vsmul dt k3_vel)
      let k4_vel := a4
      let new_pos := vadd pos (vsmul (dt / 6)
        (vadd k1_pos (vadd (vsmul (2 : K) k2_pos) (vadd (vsmul (2 : K) k3_pos) k4_pos))))
      let new_vel := vadd vel (vsmul (dt / 6)
        (vadd k1_vel (vadd (vsmul (2 : K) k2_vel) (vadd (vsmul (2 : K) k3_vel) k4_vel))))
      rk4Aux temp dt acceleration_fn cfg k (σ4, new_pos, new_vel)

/-- `rk4` in the reference model (`src/core/integrators.py`, lines 46-92);
returns the store as it stands after the run. -/
def rk4 {K : Type} [LinearOrderedField K] [FloorRing K] (σ : Store K)
    (state : SystemState K) (duration dt : K)
    (acceleration_fn : AccelerationFunc K) (cfg : Option (PrecessionConfig K)) : Store K :=
  let n_steps := (⌈duration / dt⌉).toNat
  let pos0 := SystemState.positionsOf σ state
  let vel0 := SystemState.velocitiesOf σ state
  let c := SystemState.copy σ state
  (rk4Aux c.2 dt acceleration_fn cfg n_steps (c.1, pos0, vel0)).1

/-- The dispatcher `integrate` in the reference model
(`src/core/integrators.py`, lines 95-116): the chosen integrator is handed
`state.copy()`. -/
def integrate {K : Type} [LinearOrderedField K] [FloorRing K] (σ : Store K)
    (state : SystemState K) (duration dt : K) (method : String)
    (acceleration_fn : AccelerationFunc K) (cfg : Option (PrecessionConfig K)) :
    Except String (Store K) :=
  let integrators : List (String ×
      (Store K → SystemState K → K → K → AccelerationFunc K →
        Option (PrecessionConfig K) → Store K)) :=
    [("leapfrog", leapfrog), ("verlet", leapfrog), ("rk4", rk4)]
  match integrators.lookup (lowerStr method) with
  | some integrator =>
      let c := SystemState.copy σ state
      .ok (integrator c.1 c.2 duration dt acceleration_fn cfg)
  | none => .error ("Unknown integration method \x27" ++ method ++ "\x27.")

/-- Well-formedness of a caller state: every reference points into the
store. -/
def WF {K : Type} (σ : Store K) (s : SystemState K) : Prop :=
  ∀ b ∈ s, b.posRef < σ.length ∧ b.velRef < σ.length

end Heap

/-! ### Concrete instances used by witnesses -/

/-- A one-body system over `ℚ`, used to instantiate the integrator claims
at a concrete, evaluable input. -/
def exampleState : SystemState 1 ℚ :=
  ⟨fun _ => { name := "Star", mass := 1, position := (0, 0), velocity := (0, 0) }⟩

/-- The zero acceleration function over `ℚ`, used by witnesses. -/
def exampleAccel : AccelerationFunc 1 ℚ :=
  fun _ _ => 0

/-- A two-body system over `ℝ` whose bodies are named `Planet` and `Moon`
and share the same position, used to instantiate the precession claims. -/
def examplePlanetMoon : SystemState 2 ℝ :=
  ⟨fun i =>
    if i.val = 0 then { name := "Planet", mass := 1, position := (1, 2), velocity := (0, 0) }
    else { name := "Moon", mass := 1, position := (1, 2), velocity := (0, 0) }⟩

/-- A concrete acceleration array over `ℝ`, used by witnesses. -/
def exampleAccArray : Vec 2 ℝ :=
  fun _ => (3, 4)

/-- A concrete perturbation configuration with nonzero strength. -/
def examplePrecession : PrecessionConfig ℝ :=
  [("moon_precession_strength", 1)]

/-- Concrete positions for the energy claim: two distinct bodies. -/
def examplePositions : Vec 2 ℝ :=
  fun i => if i.val = 0 then (0, 0) else (1, 0)

/-- Concrete velocities for the energy claim. -/
def exampleVelocities : Vec 2 ℝ :=
  fun _ => (0, 0)

/-- Concrete masses for the energy claim. -/
def exampleMasses : Fin 2 → ℝ :=
  fun _ => 1

/-- A concrete two-cell store over `ℚ` for the no-mutation claim. -/
def exampleHeapStore : Heap.Store ℚ :=
  [(1, 2), (3, 4)]

/-- A one-body caller state whose references point into
`exampleHeapStore`. -/
def exampleHeapState : Heap.SystemState ℚ :=
  [{ name := "A", mass := 1, posRef := 0, velRef := 1 }]

/-- The zero acceleration function in the reference model. -/
def exampleHeapAccel : Heap.AccelerationFunc ℚ :=
  fun _ _ _ => [(0, 0)]

/-! ### Helper lemmas about `searchsorted` -/

theorem searchsorted_le_of_le (xs : List ℚ) {a b : ℚ} (h : a ≤ b) :
    searchsorted xs a ≤ searchsorted xs b := by
  unfold searchsorted
  induction xs with
  | nil => simp
  | cons x xs ih =>
      simp only [List.countP_cons]
      by_cases hxa : x < a
      · have hxb : x < b := lt_of_lt_of_le hxa h
        simp [hxa, hxb]
        omega
      · by_cases hxb : x < b <;> simp [hxa, hxb] <;> omega

theorem searchsorted_split (xs : List ℚ) {a b : ℚ} (h : a ≤ b) :
    searchsorted xs b
      = searchsorted xs a + xs.countP (fun t => decide (a ≤ t ∧ t < b)) := by
  induction xs with
  | nil => simp [searchsorted]
  | cons x xs ih =>
      by_cases hxa : x < a
      · have hxb : x < b := lt_of_lt_of_le hxa h
        have h1 : searchsorted (x :: xs) b = searchsorted xs b + 1 := by
          simp [searchsorted, List.countP_cons, hxb]
        have h2 : searchsorted (x :: xs) a = searchsorted xs a + 1 := by
          simp [searchsorted, List.countP_cons, hxa]
        have h3 : List.countP (fun t => decide (a ≤ t ∧ t < b)) (x :: xs)
            = List.countP (fun t => decide (a ≤ t ∧ t < b)) xs := by
          simp [List.countP_cons, not_le.mpr hxa]
        rw [h1, h2, h3, ih]
        omega
      · by_cases hxb : x < b
        · have hax : a ≤ x := le_of_not_lt hxa
          have h1 : searchsorted (x :: xs) b = searchsorted xs b + 1 := by
            simp [searchsorted, List.countP_cons, hxb]
          have h2 : searchsorted (x :: xs) a = searchsorted xs a := by
            simp [searchsorted, List.countP_cons, hxa]
          have h3 : List.countP (fun t => decide (a ≤ t ∧ t < b)) (x :: xs)
              = List.countP (fun t => decide (a ≤ t ∧ t < b)) xs + 1 := by
            simp [List.countP_cons, hax, hxb]
          rw [h1, h2, h3, ih]
          omega
        · have h1 : searchsorted (x :: xs) b = searchsorted xs b := by
            simp [searchsorted, List.countP_cons, hxb]
          have h2 : searchsorted (x :: xs) a = searchsorted xs a := by
            simp [searchsorted, List.countP_cons, hxa]
          have h3 : List.countP (fun t => decide (a ≤ t ∧ t < b)) (x :: xs)
              = List.countP (fun t => decide (a ≤ t ∧ t < b)) xs := by
            simp [List.countP_cons, hxb]
          rw [h1, h2, h3, ih]

theorem orbitsBetweenAux_eq_counts (peri : List ℚ) :
    ∀ (rest : List ℚ) (a0 : ℚ), List.Sorted (· ≤ ·) (a0 :: rest) →
    orbitsBetweenAux peri (searchsorted peri a0) rest
      = ((a0 :: rest).zip rest).map
          (fun p => (peri.countP (fun t => decide (p.1 ≤ t ∧ t < p.2)) : ℤ)) := by
  intro rest
  induction rest with
  | nil =>
      intro a0 _
      simp [orbitsBetweenAux]
  | cons a rs ih =>
      intro a0 hs
      have ha0a : a0 ≤ a := (List.sorted_cons.mp hs).1 a (by simp)
      have hs' : List.Sorted (· ≤ ·) (a :: rs) := (List.sorted_cons.mp hs).2
      have hhead : max 0 ((searchsorted peri a : ℤ) - (searchsorted peri a0 : ℤ))
          = (peri.countP (fun t => decide (a0 ≤ t ∧ t < a)) : ℤ) := by
        rw [searchsorted_split peri ha0a]
        push_cast
        omega
      simp only [orbitsBetweenAux, List.zip_cons_cons, List.map_cons]
      rw [hhead, ih a hs']

theorem meanOfIntCasts (l : List (ℚ × ℚ)) (f : ℚ × ℚ → ℕ) :
    (if (List.map (fun p => ((f p : ℕ) : ℤ)) l).isEmpty = true then (none : Option ℚ)
     else some ((List.map (fun c : ℤ => (c : ℚ)) (List.map (fun p => ((f p : ℕ) : ℤ)) l)).sum
                  / (List.map (fun p => ((f p : ℕ) : ℤ)) l).length))
    = (if l.isEmpty = true then none
       else some ((List.map (fun p => ((f p : ℕ) : ℚ)) l).sum / l.length)) := by
  have h1 : (List.map (fun p => ((f p : ℕ) : ℤ)) l).isEmpty = l.isEmpty := by
    cases l <;> simp
  have h2 : (List.map (fun c : ℤ => (c : ℚ)) (List.map (fun p => ((f p : ℕ) : ℤ)) l))
      = List.map (fun p => ((f p : ℕ) : ℚ)) l := by
    rw [List.map_map]
    induction l with
    | nil => simp
    | cons q qs ih => simp [ih]
  have h3 : (List.map (fun p => ((f p : ℕ) : ℤ)) l).length = l.length :=
    List.length_map _ _
  rw [h1, h2, h3]

theorem summariseCore_eq_halfOpenMeanOrbits (times pericentre_times alignments : List ℚ)
    (hperi : List.Sorted (· ≤ ·) pericentre_times)
    (halign : List.Sorted (· ≤ ·) alignments) :
    summariseCore times pericentre_times alignments
      = halfOpenMeanOrbits pericentre_times alignments := by
  unfold summariseCore halfOpenMeanOrbits
  by_cases hc : 2 ≤ alignments.length ∧ 0 < pericentre_times.length
  · rw [if_pos hc, if_pos hc]
    match alignments, hc, halign with
    | [], hc, _ => simp at hc
    | [a0], hc, _ => simp at hc
    | a0 :: a1 :: rs, hc, halign =>
        have hcounts := orbitsBetweenAux_eq_counts pericentre_times (a1 :: rs) a0 halign
        show (if (orbitsBetweenAux pericentre_times
                    (searchsorted pericentre_times a0) (a1 :: rs)).isEmpty = true then none
              else some (((orbitsBetweenAux pericentre_times
                    (searchsorted pericentre_times a0) (a1 :: rs)).map (fun c : ℤ => (c : ℚ))).sum
                  / (orbitsBetweenAux pericentre_times
                    (searchsorted pericentre_times a0) (a1 :: rs)).length)) = _
        rw [hcounts]
        exact meanOfIntCasts ((a0 :: a1 :: rs).zip (a1 :: rs))
          (fun p => pericentre_times.countP (fun t => decide (p.1 ≤ t ∧ t < p.2)))
  · rw [if_neg hc, if_neg hc]

/-! ### Claims C1 and C2 (metrics summarization) -/

/-- C1, counterexample: with detected alignments `[1, 3, 5]` and detected
pericentre timestamps `[1.5, 2.5, 3.5, 4.5]`, each consecutive alignment
interval contains two pericentre timestamps, so the code reports a mean of
2.0 — not the 1.0 the claim states. -/
theorem claim_C1_counterexample :
    summariseCore [1, 3/2, 5/2, 3, 7/2, 9/2, 5] [3/2, 5/2, 7/2, 9/2] [1, 3, 5] = some 2
      ∧ summariseCore [1, 3/2, 5/2, 3, 7/2, 9/2, 5] [3/2, 5/2, 7/2, 9/2] [1, 3, 5] ≠ some 1 := by
  constructor
  · norm_num [summariseCore, orbitsBetweenAux, searchsorted]
  · norm_num [summariseCore, orbitsBetweenAux, searchsorted]

/-- C1, amended: with detected alignments `[1, 3, 5]` and detected
pericentre timestamps `[1.5, 2.5, 3.5, 4.5]`, the reported mean
orbits-between-alignments equals 2.0 (two pericentres per interval); and
with a single detected alignment the mean is absent. -/
theorem claim_C1 :
    summariseCore [1, 3/2, 5/2, 3, 7/2, 9/2, 5] [3/2, 5/2, 7/2, 9/2] [1, 3, 5] = some 2
      ∧ ∀ (times pericentre_times : List ℚ) (a : ℚ),
          summariseCore times pericentre_times [a] = none := by
  constructor
  · norm_num [summariseCore, orbitsBetweenAux, searchsorted]
  · intro times pericentre_times a
    simp [summariseCore]

/-- C2, counterexample: for the sorted detected lists
`pericentre_times = [2]`, `alignments = [0, 1, 2, 3, 4]` (realizable e.g.
by a permanently collinear configuration whose pericentre sample coincides
with an alignment sample), the code's `searchsorted` differences count the
pericentre at `2` in the half-open interval `[2, 3)`, giving mean `1/4`,
while the claim's strictly-between count gives mean `0`. -/
theorem claim_C2_counterexample :
    List.Sorted (· ≤ ·) [(2 : ℚ)]
      ∧ List.Sorted (· ≤ ·) [(0 : ℚ), 1, 2, 3, 4]
      ∧ summariseCore [0, 1, 2, 3, 4] [2] [0, 1, 2, 3, 4] = some (1/4)
      ∧ specStrictMeanOrbits [2] [0, 1, 2, 3, 4] = some 0
      ∧ summariseCore [0, 1, 2, 3, 4] [2] [0, 1, 2, 3, 4]
          ≠ specStrictMeanOrbits [2] [0, 1, 2, 3, 4] := by
  refine ⟨by decide, by decide, ?_, ?_, ?_⟩
  · norm_num [summariseCore, orbitsBetweenAux, searchsorted]
  · norm_num [specStrictMeanOrbits]
  · norm_num [summariseCore, orbitsBetweenAux, searchsorted, specStrictMeanOrbits]

/-- C2, amended: for every sorted pericentre list and sorted alignment list,
when at least two alignments and at least one pericentre exist the reported
mean equals the average over consecutive alignment pairs `(a, b)` of the
number of pericentre timestamps `t` with `a ≤ t < b` (half-open, the
left-sided `searchsorted` difference; this coincides with the strictly-
between count whenever no pericentre timestamp equals an alignment
timestamp); otherwise the mean is absent (`none`), never zero. -/
theorem claim_C2 (times pericentre_times alignments : List ℚ)
    (hperi : List.Sorted (· ≤ ·) pericentre_times)
    (halign : List.Sorted (· ≤ ·) alignments) :
    summariseCore times pericentre_times alignments
        = halfOpenMeanOrbits pericentre_times alignments
      ∧ (alignments.length < 2 ∨ pericentre_times.length = 0 →
          summariseCore times pericentre_times alignments = none) := by
  refine ⟨summariseCore_eq_halfOpenMeanOrbits times pericentre_times alignments hperi halign, ?_⟩
  intro h
  unfold summariseCore
  rw [if_neg]
  omega

/-- C2, witness: the amended statement applied to the concrete sorted lists
`pericentre_times = [2, 3]`, `alignments = [1, 4, 6]`. -/
theorem claim_C2_witness :
    summariseCore [0] [2, 3] [1, 4, 6] = halfOpenMeanOrbits [2, 3] [1, 4, 6]
      ∧ ([(1 : ℚ), 4, 6].length < 2 ∨ [(2 : ℚ), 3].length = 0 →
          summariseCore [0] [2, 3] [1, 4, 6] = none) :=
  claim_C2 [0] [2, 3] [1, 4, 6] (by decide) (by decide)

/-! ### Claims C3, C4, C5, C10 (integrators and dispatcher) -/

theorem SystemState.update_update {n : ℕ} {K : Type} (s : SystemState n K)
    (p v q w : Vec n K) : (s.update p v).update q w = s.update q w :=
  rfl

theorem leapfrogIter_temp_update {n : ℕ} {K : Type} [LinearOrderedField K] (dt : K)
    (acceleration_fn : AccelerationFunc n K) (cfg : Option (PrecessionConfig K))
    (state : SystemState n K) :
    ∀ (k : ℕ) (p v : Vec n K),
      ((leapfrogIter dt acceleration_fn cfg state k).temp).update p v = state.update p v := by
  intro k
  induction k with
  | zero => intro p v; rfl
  | succ k ih => intro p v; exact ih p v

theorem leapfrogIter_evals {n : ℕ} {K : Type} [LinearOrderedField K] (dt : K)
    (acceleration_fn : AccelerationFunc n K) (cfg : Option (PrecessionConfig K))
    (state : SystemState n K) :
    ∀ k : ℕ, (leapfrogIter dt acceleration_fn cfg state k).evals = k + 1 := by
  intro k
  induction k with
  | zero => rfl
  | succ k ih =>
      show (leapfrogIter dt acceleration_fn cfg state k).evals + 1 = k + 1 + 1
      rw [ih]

/-- C3: each leapfrog step first advances the positions by
`pos + dt*vel + 0.5*accel*dt²`, then evaluates the acceleration exactly once,
at the new positions with the *previous* step's velocities (the working copy
is overwritten with `(new_positions, old velocities)` before the call), and
only then updates the velocities by `vel + 0.5*(old accel + new accel)*dt`;
the evaluation counter shows one initial evaluation plus exactly one per
step. -/
theorem claim_C3 {n : ℕ} {K : Type} [LinearOrderedField K]
    (state : SystemState n K) (dt : K) (acceleration_fn : AccelerationFunc n K)
    (cfg : Option (PrecessionConfig K)) (k : ℕ) :
    (leapfrogIter dt acceleration_fn cfg state (k + 1)).pos
        = (leapfrogIter dt acceleration_fn cfg state k).pos
            + dt • (leapfrogIter dt acceleration_fn cfg state k).vel
            + ((1/2 : K) * dt * dt) • (leapfrogIter dt acceleration_fn cfg state k).accel
      ∧ (leapfrogIter dt acceleration_fn cfg state (k + 1)).accel
        = acceleration_fn
            (state.update (leapfrogIter dt acceleration_fn cfg state (k + 1)).pos
              (leapfrogIter dt acceleration_fn cfg state k).vel) cfg
      ∧ (leapfrogIter dt acceleration_fn cfg state (k + 1)).vel
        = (leapfrogIter dt acceleration_fn cfg state k).vel
            + ((1/2 : K) * dt) • ((leapfrogIter dt acceleration_fn cfg state k).accel
                + (leapfrogIter dt acceleration_fn cfg state (k + 1)).accel)
      ∧ (leapfrogIter dt acceleration_fn cfg state 0).accel
          = acceleration_fn state.copy cfg
      ∧ (leapfrogIter dt acceleration_fn cfg state (k + 1)).evals
          = (leapfrogIter dt acceleration_fn cfg state k).evals + 1
      ∧ (leapfrogIter dt acceleration_fn cfg state k).evals = k + 1 := by
  refine ⟨rfl, ?_, rfl, rfl, rfl, leapfrogIter_evals dt acceleration_fn cfg state k⟩
  show acceleration_fn
      (((leapfrogIter dt acceleration_fn cfg state k).temp).update
        (leapfrogIter dt acceleration_fn cfg state (k + 1)).pos
        (leapfrogIter dt acceleration_fn cfg state k).vel) cfg = _
  rw [leapfrogIter_temp_update]

/-- C5: for positive step size and nonnegative duration, both integrators
return position and velocity histories of exactly `ceil(duration/dt) + 1`
snapshots (each snapshot an `N × 2` array, one row per body), and snapshot
index 0 is the initial state's stacked positions and velocities. -/
theorem claim_C5 {n : ℕ} {K : Type} [LinearOrderedField K] [FloorRing K]
    (state : SystemState n K) (duration dt : K)
    (acceleration_fn : AccelerationFunc n K) (cfg : Option (PrecessionConfig K))
    (hdt : 0 < dt) (hdur : 0 ≤ duration) :
    ((⌈duration / dt⌉.toNat : ℤ) = ⌈duration / dt⌉)
      ∧ (leapfrog state duration dt acceleration_fn cfg).1.length = ⌈duration / dt⌉.toNat + 1
      ∧ (leapfrog state duration dt acceleration_fn cfg).2.length = ⌈duration / dt⌉.toNat + 1
      ∧ (rk4 state duration dt acceleration_fn cfg).1.length = ⌈duration / dt⌉.toNat + 1
      ∧ (rk4 state duration dt acceleration_fn cfg).2.length = ⌈duration / dt⌉.toNat + 1
      ∧ (leapfrog state duration dt acceleration_fn cfg).1[0]? = some state.positions
      ∧ (leapfrog state duration dt acceleration_fn cfg).2[0]? = some state.velocities
      ∧ (rk4 state duration dt acceleration_fn cfg).1[0]? = some state.positions
      ∧ (rk4 state duration dt acceleration_fn cfg).2[0]? = some state.velocities := by
  refine ⟨Int.toNat_of_nonneg (Int.ceil_nonneg (div_nonneg hdur hdt.le)),
    ?_, ?_, ?_, ?_, ?_, ?_, ?_, ?_⟩
  · simp [leapfrog]
  · simp [leapfrog]
  · simp [rk4]
  · simp [rk4]
  · simp [leapfrog]
    rfl
  · simp [leapfrog]
    rfl
  · simp [rk4]
    rfl
  · simp [rk4]
    rfl

/-- C5, witness: the snapshot-count contract at the concrete one-body
system, `duration = 1`, `dt = 1`. -/
theorem claim_C5_witness :
    ((⌈(1 : ℚ) / 1⌉.toNat : ℤ) = ⌈(1 : ℚ) / 1⌉)
      ∧ (leapfrog exampleState 1 1 exampleAccel none).1.length = ⌈(1 : ℚ) / 1⌉.toNat + 1
      ∧ (leapfrog exampleState 1 1 exampleAccel none).2.length = ⌈(1 : ℚ) / 1⌉.toNat + 1
      ∧ (rk4 exampleState 1 1 exampleAccel none).1.length = ⌈(1 : ℚ) / 1⌉.toNat + 1
      ∧ (rk4 exampleState 1 1 exampleAccel none).2.length = ⌈(1 : ℚ) / 1⌉.toNat + 1
      ∧ (leapfrog exampleState 1 1 exampleAccel none).1[0]? = some exampleState.positions
      ∧ (leapfrog exampleState 1 1 exampleAccel none).2[0]? = some exampleState.velocities
      ∧ (rk4 exampleState 1 1 exampleAccel none).1[0]? = some exampleState.positions
      ∧ (rk4 exampleState 1 1 exampleAccel none).2[0]? = some exampleState.velocities :=
  claim_C5 exampleState 1 1 exampleAccel none (by norm_num) (by norm_num)

/-- C4: the dispatcher resolves the lowercased method name; any method whose
lowercased form is not one of the recognized names fails with the
`ValueError` naming the offending (original) string, and produces no
output. -/
theorem claim_C4 {n : ℕ} {K : Type} [LinearOrderedField K] [FloorRing K]
    (state : SystemState n K) (duration dt : K) (method : String)
    (acceleration_fn : AccelerationFunc n K) (cfg : Option (PrecessionConfig K))
    (h : (lowerStr method) ∉ ["leapfrog", "verlet", "rk4"]) :
    integrate state duration dt method acceleration_fn cfg
      = .error ("Unknown integration method \x27" ++ method ++ "\x27.") := by
  have h1 : ((lowerStr method) == "leapfrog") = false :=
    beq_eq_false_iff_ne.mpr (fun hc => h (by simp [hc]))
  have h2 : ((lowerStr method) == "verlet") = false :=
    beq_eq_false_iff_ne.mpr (fun hc => h (by simp [hc]))
  have h3 : ((lowerStr method) == "rk4") = false :=
    beq_eq_false_iff_ne.mpr (fun hc => h (by simp [hc]))
  simp [integrate, List.lookup, h1, h2, h3]

/-- C4, witness: `integrate` with method `"euler"` fails with the
invalid-argument error naming `euler`. -/
theorem claim_C4_witness :
    lowerStr "euler" ∉ ["leapfrog", "verlet", "rk4"]
      ∧ integrate exampleState 1 1 "euler" exampleAccel none
          = .error ("Unknown integration method \x27" ++ "euler" ++ "\x27.") :=
  ⟨by decide, claim_C4 exampleState 1 1 "euler" exampleAccel none (by decide)⟩

/-- C10: any method name whose lowercased form is `"verlet"` is dispatched,
without failing, to the leapfrog integrator, and yields exactly the result
of `integrate` with `"leapfrog"`. -/
theorem claim_C10 {n : ℕ} {K : Type} [LinearOrderedField K] [FloorRing K]
    (state : SystemState n K) (duration dt : K) (method : String)
    (acceleration_fn : AccelerationFunc n K) (cfg : Option (PrecessionConfig K))
    (h : (lowerStr method) = "verlet") :
    integrate state duration dt method acceleration_fn cfg
        = .ok (leapfrog state duration dt acceleration_fn cfg)
      ∧ integrate state duration dt method acceleration_fn cfg
        = integrate state duration dt "leapfrog" acceleration_fn cfg := by
  unfold integrate
  rw [h]
  exact ⟨rfl, rfl⟩

/-- C10, witness: `integrate` with `"VERLET"` (upper case) equals the
leapfrog run and the `"leapfrog"` dispatch on the concrete one-body
system. -/
theorem claim_C10_witness :
    lowerStr "VERLET" = "verlet"
      ∧ integrate exampleState 1 1 "VERLET" exampleAccel none
          = .ok (leapfrog exampleState 1 1 exampleAccel none)
      ∧ integrate exampleState 1 1 "VERLET" exampleAccel none
          = integrate exampleState 1 1 "leapfrog" exampleAccel none :=
  ⟨by decide,
   (claim_C10 exampleState 1 1 "VERLET" exampleAccel none (by decide)).1,
   (claim_C10 exampleState 1 1 "VERLET" exampleAccel none (by decide)).2⟩

/-! ### Claims C8 and C9 (gravity and energy) -/

theorem gravityContribution_self (p : ℝ × ℝ) (mj : ℝ) :
    gravityContribution p p mj = 0 := by
  unfold gravityContribution
  simp

/-- C8: in `compute_pairwise_gravity` a pair at zero separation (in
particular a body with itself) contributes exactly zero — the
`np.where(distance_sq > 0, …, 0)` guard makes this a defined case — and a
single-body system gets exactly the zero acceleration vector. -/
theorem claim_C8 :
    (∀ (pi pj : ℝ × ℝ) (mj : ℝ), pi = pj → gravityContribution pi pj mj = 0)
      ∧ ∀ (positions : Vec 1 ℝ) (masses : Fin 1 → ℝ),
          compute_pairwise_gravity positions masses = 0 := by
  constructor
  · intro pi pj mj h
    subst h
    exact gravityContribution_self pi mj
  · intro positions masses
    funext i
    show ∑ j, gravityContribution (positions i) (positions j) (masses j) = 0
    rw [Fin.sum_univ_one]
    have hi : i = 0 := Subsingleton.elim i 0
    rw [hi]
    exact gravityContribution_self (positions 0) (masses 0)

/-- C8, witness: the zero-separation contribution and the single-body case
at concrete inputs. -/
theorem claim_C8_witness :
    gravityContribution ((1 : ℝ), 2) (1, 2) 3 = 0
      ∧ compute_pairwise_gravity (fun _ : Fin 1 => ((5 : ℝ), 6)) (fun _ => 7) = 0 :=
  ⟨claim_C8.1 (1, 2) (1, 2) 3 rfl, claim_C8.2 (fun _ => (5, 6)) (fun _ => 7)⟩

/-- C9: for pairwise-distinct positions, `compute_total_energy` returns
kinetic energy `½ Σ mᵢ |vᵢ|²` and potential energy
`-Σ_{i<j} G mᵢ mⱼ / |rᵢ - rⱼ|`, with the same gravitational constant
`CONSTANTS.gravitational_constant` as the acceleration model. -/
theorem claim_C9 {n : ℕ} (positions velocities : Vec n ℝ) (masses : Fin n → ℝ)
    (hdistinct : ∀ i j : Fin n, i ≠ j → positions i ≠ positions j) :
    compute_total_energy positions velocities masses
      = ((1/2 : ℝ) * ∑ i, masses i * ((velocities i).1 ^ 2 + (velocities i).2 ^ 2),
         -(∑ i, ∑ j ∈ Finset.Ioi i,
            CONSTANTS.gravitational_constant * masses i * masses j
              / Real.sqrt (((positions i).1 - (positions j).1) ^ 2
                  + ((positions i).2 - (positions j).2) ^ 2))) := by
  unfold compute_total_energy
  simp only [Prod.mk.injEq]
  constructor
  · congr 1
    apply Finset.sum_congr rfl
    intro i _
    ring
  · rw [← Finset.sum_neg_distrib]
    apply Finset.sum_congr rfl
    intro i _
    rw [← Finset.sum_neg_distrib]
    apply Finset.sum_congr rfl
    intro j _
    simp [norm2]

/-- C9, witness: the energy formulas at a concrete two-body snapshot with
distinct positions. -/
theorem claim_C9_witness :
    (∀ i j : Fin 2, i ≠ j → examplePositions i ≠ examplePositions j)
      ∧ compute_total_energy examplePositions exampleVelocities exampleMasses
        = ((1/2 : ℝ) * ∑ i, exampleMasses i *
              ((exampleVelocities i).1 ^ 2 + (exampleVelocities i).2 ^ 2),
           -(∑ i, ∑ j ∈ Finset.Ioi i,
              CONSTANTS.gravitational_constant * exampleMasses i * exampleMasses j
                / Real.sqrt (((examplePositions i).1 - (examplePositions j).1) ^ 2
                    + ((examplePositions i).2 - (examplePositions j).2) ^ 2))) := by
  have hdistinct : ∀ i j : Fin 2, i ≠ j → examplePositions i ≠ examplePositions j := by
    intro i j hij
    fin_cases i <;> fin_cases j <;>
      simp_all [examplePositions, Prod.ext_iff]
  exact ⟨hdistinct, claim_C9 examplePositions exampleVelocities exampleMasses hdistinct⟩

/-! ### Claim C6 (precession configuration errors and degenerate geometry) -/

theorem apply_precession_error_iff {n : ℕ} (system : SystemState n ℝ)
    (accelerations : Vec n ℝ) (cfg : PrecessionConfig ℝ) :
    (∃ msg, apply_precession system accelerations cfg = .error msg)
      ↔ (dictGet cfg "moon_precession_strength" 0 ≠ 0
          ∧ ((List.finRange n).find? (fun i => (system.bodies i).name == "Planet") = none
              ∨ (List.finRange n).find? (fun i => (system.bodies i).name == "Moon") = none)) := by
  unfold apply_precession
  by_cases hs : dictGet cfg "moon_precession_strength" 0 = 0
  · simp [hs]
  · rw [if_neg hs]
    rcases hP : (List.finRange n).find? (fun i => (system.bodies i).name == "Planet") with _ | p
    · rcases hM : (List.finRange n).find? (fun i => (system.bodies i).name == "Moon") with _ | m
      · simp [hs]
      · simp [hs]
    · rcases hM : (List.finRange n).find? (fun i => (system.bodies i).name == "Moon") with _ | m
      · simp [hs]
      · have hrhs : ¬(dictGet cfg "moon_precession_strength" 0 ≠ 0
            ∧ ((some p : Option (Fin n)) = none ∨ (some m : Option (Fin n)) = none)) := by
          simp
        constructor
        · rintro ⟨msg, hmsg⟩
          split at hmsg
          · dsimp only at hmsg
            split at hmsg <;> simp at hmsg
          · simp at hmsg
            rename_i harms
            exact (harms p m rfl rfl).elim
        · intro hcontra
          exact absurd hcontra hrhs

theorem apply_precession_zero_separation {n : ℕ} (system : SystemState n ℝ)
    (accelerations : Vec n ℝ) (cfg : PrecessionConfig ℝ) (p m : Fin n)
    (hP : (List.finRange n).find? (fun i => (system.bodies i).name == "Planet") = some p)
    (hM : (List.finRange n).find? (fun i => (system.bodies i).name == "Moon") = some m)
    (hpos : (system.bodies m).position = (system.bodies p).position) :
    apply_precession system accelerations cfg = .ok accelerations := by
  unfold apply_precession
  by_cases hs : dictGet cfg "moon_precession_strength" 0 = 0
  · rw [if_pos hs]
  · rw [if_neg hs]
    have hrel : (system.bodies m).position - (system.bodies p).position = 0 := by
      rw [hpos, sub_self]
    have h0 : norm2 (0 : ℝ × ℝ) = 0 := by
      simp [norm2]
    simp only [hP, hM, hrel]
    rw [if_pos h0]

theorem compute_accelerations_error_iff {n : ℕ} (system : SystemState n ℝ)
    (cfg : PrecessionConfig ℝ) :
    (∃ msg, compute_accelerations system (some cfg) = .error msg)
      ↔ (dictGet cfg "moon_precession_strength" 0 ≠ 0
          ∧ ((List.finRange n).find? (fun i => (system.bodies i).name == "Planet") = none
              ∨ (List.finRange n).find? (fun i => (system.bodies i).name == "Moon") = none)) := by
  unfold compute_accelerations
  by_cases he : cfg.isEmpty
  · have hc : cfg = [] := List.isEmpty_iff.mp he
    subst hc
    simp [dictGet]
  · show (∃ msg, (if cfg.isEmpty = true then Except.ok _ else apply_precession system _ cfg)
        = Except.error msg) ↔ _
    rw [if_neg he]
    exact apply_precession_error_iff system _ cfg

/-- C6: `apply_precession` (and `compute_accelerations` handed the same
configuration) fails with the configuration error exactly when the
configured `moon_precession_strength` is nonzero and the first-index lookup
of a body named `Planet` or of one named `Moon` fails; and when the
planet-moon separation is zero it returns the accelerations unchanged —
no flag, no error. -/
theorem claim_C6 {n : ℕ} (system : SystemState n ℝ) (accelerations : Vec n ℝ)
    (cfg : PrecessionConfig ℝ) :
    ((∃ msg, apply_precession system accelerations cfg = .error msg)
        ↔ (dictGet cfg "moon_precession_strength" 0 ≠ 0
            ∧ ((List.finRange n).find? (fun i => (system.bodies i).name == "Planet") = none
                ∨ (List.finRange n).find? (fun i => (system.bodies i).name == "Moon") = none)))
      ∧ ((∃ msg, compute_accelerations system (some cfg) = .error msg)
        ↔ (dictGet cfg "moon_precession_strength" 0 ≠ 0
            ∧ ((List.finRange n).find? (fun i => (system.bodies i).name == "Planet") = none
                ∨ (List.finRange n).find? (fun i => (system.bodies i).name == "Moon") = none)))
      ∧ (∀ p m : Fin n,
          (List.finRange n).find? (fun i => (system.bodies i).name == "Planet") = some p →
          (List.finRange n).find? (fun i => (system.bodies i).name == "Moon") = some m →
          (system.bodies m).position = (system.bodies p).position →
          apply_precession system accelerations cfg = .ok accelerations) :=
  ⟨apply_precession_error_iff system accelerations cfg,
   compute_accelerations_error_iff system cfg,
   fun p m hP hM hpos =>
     apply_precession_zero_separation system accelerations cfg p m hP hM hpos⟩

/-- C6, witness: on the concrete `Planet`/`Moon` system with coincident
positions and nonzero strength, the perturbation is silently skipped. -/
theorem claim_C6_witness :
    (List.finRange 2).find? (fun i => (examplePlanetMoon.bodies i).name == "Planet") = some 0
      ∧ (List.finRange 2).find? (fun i => (examplePlanetMoon.bodies i).name == "Moon") = some 1
      ∧ (examplePlanetMoon.bodies 1).position = (examplePlanetMoon.bodies 0).position
      ∧ apply_precession examplePlanetMoon exampleAccArray examplePrecession
          = .ok exampleAccArray :=
  ⟨by decide, by decide, rfl,
   (claim_C6 examplePlanetMoon exampleAccArray examplePrecession).2.2 0 1
     (by decide) (by decide) rfl⟩

/-! ### Claim C7 (integration never mutates the caller's state) -/

namespace Heap

theorem Store.read_append {K : Type} [Zero K] (σ Δ : Store K) (r : ℕ) (h : r < σ.length) :
    Store.read (σ ++ Δ) r = Store.read σ r := by
  simp [Store.read, List.getD, List.getElem?_append, h]

theorem Store.read_write_ne {K : Type} [Zero K] (σ : Store K) (r : ℕ) (v : K × K)
    (q : ℕ) (h : q ≠ r) :
    Store.read (Store.write σ r v) q = Store.read σ q := by
  simp [Store.read, Store.write, List.getD, List.getElem?_set_ne (Ne.symm h)]

theorem Body.copy_length {K : Type} [Zero K] (σ : Store K) (b : Body K) :
    (Body.copy σ b).1.length = σ.length + 2 := by
  simp [Body.copy, Store.alloc]

theorem Body.copy_read {K : Type} [Zero K] (σ : Store K) (b : Body K) (r : ℕ)
    (h : r < σ.length) :
    Store.read (Body.copy σ b).1 r = Store.read σ r := by
  show Store.read ((σ ++ [Store.read σ b.posRef])
      ++ [Store.read (σ ++ [Store.read σ b.posRef]) b.velRef]) r = Store.read σ r
  have h1 : r < (σ ++ [Store.read σ b.posRef]).length := by
    simp
    omega
  rw [Store.read_append _ _ _ h1, Store.read_append _ _ _ h]

theorem Body.copy_refs {K : Type} [Zero K] (σ : Store K) (b : Body K) :
    σ.length ≤ (Body.copy σ b).2.posRef ∧ σ.length ≤ (Body.copy σ b).2.velRef := by
  simp [Body.copy, Store.alloc]

theorem SystemState.copy_spec {K : Type} [Zero K] :
    ∀ (s : SystemState K) (σ : Store K),
      σ.length ≤ (SystemState.copy σ s).1.length
        ∧ (∀ r, r < σ.length →
            Store.read (SystemState.copy σ s).1 r = Store.read σ r)
        ∧ ∀ b ∈ (SystemState.copy σ s).2,
            σ.length ≤ b.posRef ∧ σ.length ≤ b.velRef := by
  intro s
  induction s with
  | nil =>
      intro σ
      exact ⟨le_refl _, fun r _ => rfl, by simp [SystemState.copy]⟩
  | cons b bs ih =>
      intro σ
      obtain ⟨ih1, ih2, ih3⟩ := ih (Body.copy σ b).1
      refine ⟨?_, ?_, ?_⟩
      · calc σ.length ≤ (Body.copy σ b).1.length := by
              rw [Body.copy_length]
              omega
          _ ≤ (SystemState.copy (Body.copy σ b).1 bs).1.length := ih1
      · intro r hr
        have hr' : r < (Body.copy σ b).1.length := by
          rw [Body.copy_length]
          omega
        calc Store.read (SystemState.copy (Body.copy σ b).1 bs).1 r
            = Store.read (Body.copy σ b).1 r := ih2 r hr'
          _ = Store.read σ r := Body.copy_read σ b r hr
      · intro b' hb'
        have hb2 : b' ∈ (Body.copy σ b).2 :: (SystemState.copy (Body.copy σ b).1 bs).2 := hb'
        rcases List.mem_cons.mp hb2 with h | h
        · rw [h]
          exact Body.copy_refs σ b
        · obtain ⟨h1, h2⟩ := ih3 b' h
          rw [Body.copy_length] at h1 h2
          exact ⟨by omega, by omega⟩

theorem SystemState.update_preserve {K : Type} [Zero K] (N : ℕ) :
    ∀ (bs : SystemState K) (ps vs : List (K × K)) (σ : Store K),
      (∀ b ∈ bs, N ≤ b.posRef ∧ N ≤ b.velRef) →
      ∀ r, r < N → Store.read (SystemState.update σ bs ps vs) r = Store.read σ r := by
  intro bs
  induction bs with
  | nil => intro ps vs σ _ r _; cases ps <;> cases vs <;> rfl
  | cons b bs ih =>
      intro ps vs σ hb r hr
      cases ps with
      | nil => rfl
      | cons p ps =>
          cases vs with
          | nil => rfl
          | cons v vs =>
              obtain ⟨hp, hv⟩ := hb b (by simp)
              have hne1 : r ≠ b.posRef := by omega
              have hne2 : r ≠ b.velRef := by omega
              calc Store.read
                    (SystemState.update ((σ.write b.posRef p).write b.velRef v) bs ps vs) r
                  = Store.read ((σ.write b.posRef p).write b.velRef v) r :=
                    ih ps vs _ (fun b' h' => hb b' (by simp [h'])) r hr
                _ = Store.read (σ.write b.posRef p) r := Store.read_write_ne _ _ _ _ hne2
                _ = Store.read σ r := Store.read_write_ne _ _ _ _ hne1

theorem leapfrogAux_preserve {K : Type} [LinearOrderedField K] (temp : SystemState K)
    (dt : K) (acceleration_fn : AccelerationFunc K) (cfg : Option (PrecessionConfig K))
    (N : ℕ) (htemp : ∀ b ∈ temp, N ≤ b.posRef ∧ N ≤ b.velRef) :
    ∀ (k : ℕ) (st : Store K × List (K × K) × List (K × K) × List (K × K)) (r : ℕ),
      r < N →
      Store.read (leapfrogAux temp dt acceleration_fn cfg k st).1 r = Store.read st.1 r := by
  intro k
  induction k with
  | zero => intro st r hr; rfl
  | succ k ih =>
      intro st r hr
      obtain ⟨σ, pos, vel, accel⟩ := st
      have hupd : ∀ (σ0 : Store K) (ps vs : List (K × K)),
          Store.read (SystemState.update σ0 temp ps vs) r = Store.read σ0 r :=
        fun σ0 ps vs => SystemState.update_preserve N temp ps vs σ0 htemp r hr
      refine (ih _ r hr).trans ?_
      simp only [hupd]

theorem rk4Aux_preserve {K : Type} [LinearOrderedField K] (temp : SystemState K)
    (dt : K) (acceleration_fn : AccelerationFunc K) (cfg : Option (PrecessionConfig K))
    (N : ℕ) (htemp : ∀ b ∈ temp, N ≤ b.posRef ∧ N ≤ b.velRef) :
    ∀ (k : ℕ) (st : Store K × List (K × K) × List (K × K)) (r : ℕ), r < N →
      Store.read (rk4Aux temp dt acceleration_fn cfg k st).1 r = Store.read st.1 r := by
  intro k
  induction k with
  | zero => intro st r hr; rfl
  | succ k ih =>
      intro st r hr
      obtain ⟨σ, pos, vel⟩ := st
      have hupd : ∀ (σ0 : Store K) (ps vs : List (K × K)),
          Store.read (SystemState.update σ0 temp ps vs) r = Store.read σ0 r :=
        fun σ0 ps vs => SystemState.update_preserve N temp ps vs σ0 htemp r hr
      refine (ih _ r hr).trans ?_
      simp only [hupd]

theorem leapfrog_preserve {K : Type} [LinearOrderedField K] [FloorRing K]
    (σ : Store K) (state : SystemState K) (duration dt : K)
    (acceleration_fn : AccelerationFunc K) (cfg : Option (PrecessionConfig K))
    (r : ℕ) (hr : r < σ.length) :
    Store.read (leapfrog σ state duration dt acceleration_fn cfg) r = Store.read σ r := by
  obtain ⟨hlen, hread, hrefs⟩ := SystemState.copy_spec state σ
  exact (leapfrogAux_preserve (SystemState.copy σ state).2 dt acceleration_fn cfg
    σ.length hrefs _ _ r hr).trans (hread r hr)

theorem rk4_preserve {K : Type} [LinearOrderedField K] [FloorRing K]
    (σ : Store K) (state : SystemState K) (duration dt : K)
    (acceleration_fn : AccelerationFunc K) (cfg : Option (PrecessionConfig K))
    (r : ℕ) (hr : r < σ.length) :
    Store.read (rk4 σ state duration dt acceleration_fn cfg) r = Store.read σ r := by
  obtain ⟨hlen, hread, hrefs⟩ := SystemState.copy_spec state σ
  exact (rk4Aux_preserve (SystemState.copy σ state).2 dt acceleration_fn cfg
    σ.length hrefs _ _ r hr).trans (hread r hr)

end Heap

theorem lookup_heap_integrators {K : Type} [LinearOrderedField K] [FloorRing K]
    (key : String)
    (g : Heap.Store K → Heap.SystemState K → K → K → Heap.AccelerationFunc K →
      Option (PrecessionConfig K) → Heap.Store K)
    (h : List.lookup key
        [("leapfrog", Heap.leapfrog), ("verlet", Heap.leapfrog), ("rk4", Heap.rk4)]
      = some g) :
    g = Heap.leapfrog ∨ g = Heap.rk4 := by
  simp only [List.lookup] at h
  split at h
  · exact Or.inl (Option.some.inj h).symm
  · split at h
    · exact Or.inl (Option.some.inj h).symm
    · split at h
      · exact Or.inr (Option.some.inj h).symm
      · simp at h

/-- C7: for every well-formed caller state and every dispatch through
`integrate`, with either integrator, the values of the caller's position and
velocity cells are unchanged after the call: both integrators only write
through the references of their private deep copies, whose cells are
allocated beyond the caller's. (The caller's body records — name, mass,
colour, and the references themselves — are plain immutable values of the
model, never rebound by the integrators.) -/
theorem claim_C7 {K : Type} [LinearOrderedField K] [FloorRing K]
    (σ : Heap.Store K) (state : Heap.SystemState K) (duration dt : K) (method : String)
    (acceleration_fn : Heap.AccelerationFunc K) (cfg : Option (PrecessionConfig K))
    (hwf : Heap.WF σ state) (σfinal : Heap.Store K)
    (hok : Heap.integrate σ state duration dt method acceleration_fn cfg = .ok σfinal) :
    ∀ b ∈ state,
      Heap.Store.read σfinal b.posRef = Heap.Store.read σ b.posRef
        ∧ Heap.Store.read σfinal b.velRef = Heap.Store.read σ b.velRef := by
  intro b hb
  obtain ⟨hp, hv⟩ := hwf b hb
  unfold Heap.integrate at hok
  simp only [] at hok
  rcases hlook : List.lookup (lowerStr method)
      ([("leapfrog", Heap.leapfrog), ("verlet", Heap.leapfrog), ("rk4", Heap.rk4)] :
        List (String × (Heap.Store K → Heap.SystemState K → K → K →
          Heap.AccelerationFunc K → Option (PrecessionConfig K) → Heap.Store K)))
    with _ | g
  · rw [hlook] at hok
    simp at hok
  · rw [hlook] at hok
    dsimp only at hok
    injection hok with hσ
    obtain ⟨hlen, hread, _⟩ := Heap.SystemState.copy_spec state σ
    have hp' : b.posRef < (Heap.SystemState.copy σ state).1.length := lt_of_lt_of_le hp hlen
    have hv' : b.velRef < (Heap.SystemState.copy σ state).1.length := lt_of_lt_of_le hv hlen
    rcases lookup_heap_integrators (lowerStr method) g hlook with hg | hg <;>
      subst hg <;> rw [← hσ]
    · exact ⟨(Heap.leapfrog_preserve _ _ _ _ _ _ _ hp').trans (hread _ hp),
        (Heap.leapfrog_preserve _ _ _ _ _ _ _ hv').trans (hread _ hv)⟩
    · exact ⟨(Heap.rk4_preserve _ _ _ _ _ _ _ hp').trans (hread _ hp),
        (Heap.rk4_preserve _ _ _ _ _ _ _ hv').trans (hread _ hv)⟩

/-- C7, witness: a concrete one-body run of the dispatched leapfrog
integrator leaves the caller's two cells untouched. -/
theorem claim_C7_witness :
    Heap.WF exampleHeapStore exampleHeapState
      ∧ ∀ b ∈ exampleHeapState,
          Heap.Store.read (Heap.leapfrog
              (Heap.SystemState.copy exampleHeapStore exampleHeapState).1
              (Heap.SystemState.copy exampleHeapStore exampleHeapState).2
              1 1 exampleHeapAccel none) b.posRef
            = Heap.Store.read exampleHeapStore b.posRef
          ∧ Heap.Store.read (Heap.leapfrog
              (Heap.SystemState.copy exampleHeapStore exampleHeapState).1
              (Heap.SystemState.copy exampleHeapStore exampleHeapState).2
              1 1 exampleHeapAccel none) b.velRef
            = Heap.Store.read exampleHeapStore b.velRef :=
  ⟨by simp [Heap.WF, exampleHeapState, exampleHeapStore],
   claim_C7 exampleHeapStore exampleHeapState 1 1 "leapfrog" exampleHeapAccel none
     (by simp [Heap.WF, exampleHeapState, exampleHeapStore]) _ rfl⟩
